import Mathlib

/-!
Verification of the batch swap execution engine of the seeker swap tool.

The development shallowly embeds the two core functions of the source
module (`executeSwap` and `executeBatchSwaps`) together with the
configuration they consume.  Effectful collaborator calls (RPC balance
queries, Jupiter quote and swap-transaction requests, transaction
submission and confirmation) are modelled by explicit outcome values
supplied through an environment record, and the batch engine is driven
by an abstract single-swap executor `exec : Nat → Direction → Except
String SwapRecord` indexed by the number of executor invocations made
so far.  The batch `while` loop is embedded as a fuel-indexed loop that
returns `none` when the fuel is exhausted before the loop condition
becomes false, so termination statements become statements about the
existence of sufficient fuel.
-/

/-- The two stable assets of the tool (`TOKENS` keys in the source). -/
inductive Token
  | USDC
  | USDT
deriving DecidableEq, Repr

/-- Mint addresses from the source `TOKENS` table. -/
def TOKENS : Token → String
  | Token.USDC => "EPjFWdd5AufqSSqeM2qN1xzybapC8G4wEGGkZwyTDt1v"
  | Token.USDT => "Es9vMFrzaCERmJfrF4H2FYD4KCoNkY11McCe8BenwNYB"

/-- Token decimals from the source `DECIMALS` table (both 6). -/
def DECIMALS : Token → Nat
  | Token.USDC => 6
  | Token.USDT => 6

/-- Swap direction, the two string constants of the source. -/
inductive Direction
  | USDC_TO_USDT
  | USDT_TO_USDC
deriving DecidableEq, Repr

/-- The numeric configuration surface of `config.js` consumed by the
core (the mnemonic, URLs and API keys are connection plumbing and are
not part of the control model). -/
structure Config where
  swapAmount : Rat
  swapDelayMs : Nat
  slippageBps : Nat
  priorityFeeLamports : Nat
  batchCount : Nat
  maxRetries : Nat
deriving DecidableEq, Repr

/-- The default configuration values of `config.js`. -/
def defaultConfig : Config :=
  { swapAmount := 1 / 1000
    swapDelayMs := 3000
    slippageBps := 50
    priorityFeeLamports := 1000
    batchCount := 200
    maxRetries := 3 }

/-- Embedding of `getSwapAmountInSmallestUnits` from `jupiter.js`:
`Math.floor(config.swapAmount * 10 ** decimals)`. -/
def getSwapAmountInSmallestUnits (cfg : Config) (token : Token) : Int :=
  Rat.floor (cfg.swapAmount * (10 : Rat) ^ DECIMALS token)

/-- One entry of the batch result log.  A record returned by
`executeSwap` carries every field; the failure records pushed by the
batch engine after retry exhaustion carry only `direction`, `success`
and `error`, so the remaining fields are optional and default to
`none` (absent). -/
structure SwapRecord where
  direction : Direction
  success : Bool
  signature : Option String := none
  inputAmount : Option Int := none
  inputToken : Option Token := none
  outputAmount : Option Nat := none
  outputToken : Option Token := none
  gasUsed : Option Int := none
  duration : Option Nat := none
  error : Option String := none
deriving DecidableEq, Repr

/-- Outcome of the `connection.confirmTransaction` call inside
`executeSwap`: either the awaited query itself threw (a network
error), or it resolved with `confirmation.value.err` being `null`
(`none`) or an on-chain error object (`some`). -/
inductive ConfirmOutcome
  | queryError (msg : String)
  | confirmed (chainErr : Option String)
deriving DecidableEq, Repr

deriving instance DecidableEq for Except

/-- Outcomes of the effectful collaborator calls made by one
`executeSwap` invocation, in program order: the pre-swap balance
fetch, the Jupiter quote (its `outAmount`), the swap-transaction
build (its serialized payload; deserialization and signing are local
and folded into this step), the raw-transaction submission (the
signature), the confirmation query, and the post-swap balance
fetch.  `duration` is the wall-clock time measured at the end. -/
structure SwapEnv where
  balanceBefore : Except String Int
  quote : Except String Nat
  swapTransaction : Except String String
  sendRawTransaction : Except String String
  confirm : ConfirmOutcome
  balanceAfter : Except String Int
  duration : Nat
deriving DecidableEq, Repr

/-- Shallow embedding of `executeSwap` from `swap.js`.  The pre-swap
balance fetch is caught (a failure leaves `balanceBefore` null); quote,
swap-transaction and submission errors propagate; a confirmation query
error is caught and ignored while an on-chain error in the resolved
confirmation is thrown; the gas computation falls back to `0` when
either balance fetch failed; on reaching the end the function returns
a record with `success := true`. -/
def executeSwap (cfg : Config) (env : SwapEnv) (direction : Direction) :
    Except String SwapRecord :=
  let balanceBefore : Option Int :=
    match env.balanceBefore with
    | Except.ok b => some b
    | Except.error _ => none
  let inputToken : Token :=
    match direction with
    | Direction.USDC_TO_USDT => Token.USDC
    | Direction.USDT_TO_USDC => Token.USDT
  let outputToken : Token :=
    match direction with
    | Direction.USDC_TO_USDT => Token.USDT
    | Direction.USDT_TO_USDC => Token.USDC
  let inputAmount : Int := getSwapAmountInSmallestUnits cfg inputToken
  match env.quote with
  | Except.error e => Except.error e
  | Except.ok outAmount =>
    match env.swapTransaction with
    | Except.error e => Except.error e
    | Except.ok _serializedTx =>
      match env.sendRawTransaction with
      | Except.error e => Except.error e
      | Except.ok signature =>
        let confirmationError : Option String :=
          match env.confirm with
          | ConfirmOutcome.queryError _ => none
          | ConfirmOutcome.confirmed none => none
          | ConfirmOutcome.confirmed (some e) =>
              some ("Transaction failed: " ++ e)
        match confirmationError with
        | some e => Except.error e
        | none =>
          let gasUsed : Int :=
            match balanceBefore, env.balanceAfter with
            | some b, Except.ok a => b - a
            | _, _ => 0
          Except.ok
            { direction := direction
              success := true
              signature := some signature
              inputAmount := some inputAmount
              inputToken := some inputToken
              outputAmount := some outAmount
              outputToken := some outputToken
              gasUsed := some gasUsed
              duration := some env.duration
              error := none }

/-- Direction selection
`directionIndex % 2 === 0 ? 'USDC_TO_USDT' : 'USDT_TO_USDC'` from the
head of the batch loop body. -/
def directionFor (i : Nat) : Direction :=
  if i % 2 = 0 then Direction.USDC_TO_USDT else Direction.USDT_TO_USDC

/-- The mutable state of `executeBatchSwaps` between iterations of its
`while` loop: the result log and the four counters declared before the
loop.  `callCount` counts the `executeSwap` invocations made so far
(it indexes the abstract executor and records how many attempts really
happened) and `sleepCount` counts the `sleep(delayMs)` calls; both are
observers of the run, not variables of the source. -/
structure BatchState where
  results : List SwapRecord
  successCount : Nat
  totalAttempts : Nat
  totalFailures : Nat
  directionIndex : Nat
  callCount : Nat
  sleepCount : Nat
  slotDirections : List Direction
  slotAttempts : List Nat
deriving DecidableEq, Repr

/-- The state right after the variable declarations of
`executeBatchSwaps`, before the first loop iteration. -/
def initialBatchState : BatchState :=
  { results := []
    successCount := 0
    totalAttempts := 0
    totalFailures := 0
    directionIndex := 0
    callCount := 0
    sleepCount := 0
    slotDirections := []
    slotAttempts := [] }

/-- Result of the `for (let retry = 0; retry <= maxRetries; retry++)`
loop of one slot: the successful record, if any attempt succeeded; the
number of failed attempts made (each of which executed the
`totalAttempts++` at the bottom of the `for` body); and the `lastError`
variable (the message of the most recent failed attempt). -/
structure SlotOutcome where
  record : Option SwapRecord
  failedAttempts : Nat
  lastError : Option String
deriving DecidableEq, Repr

/-- The retry `for` loop of one slot.  `budget` is the number of loop
iterations still allowed (`maxRetries + 1` at entry), `callIdx` the
global count of executor invocations already made.  A successful
attempt breaks out immediately; a failed attempt records its error and
falls through to the next iteration. -/
def slotRetries (exec : Nat → Direction → Except String SwapRecord)
    (direction : Direction) (callIdx : Nat) : Nat → SlotOutcome
  | 0 => { record := none, failedAttempts := 0, lastError := none }
  | budget + 1 =>
    match exec callIdx direction with
    | Except.ok r => { record := some r, failedAttempts := 0, lastError := none }
    | Except.error e =>
      let rest := slotRetries exec direction (callIdx + 1) budget
      { record := rest.record
        failedAttempts := rest.failedAttempts + 1
        lastError := some (rest.lastError.getD e) }

/-- The failure record pushed by the batch engine after a slot
exhausts its retries: `{ direction, success: false, error: lastError }`. -/
def failureRecord (direction : Direction) (lastError : Option String) : SwapRecord :=
  { direction := direction, success := false, error := lastError }

/-- One full iteration of the batch `while` loop body (without the
trailing inter-slot pause): compute the direction from
`directionIndex`, run the retry loop, then either push the successful
record and bump `successCount`, or push a failure record and bump
`totalFailures`.  In both branches `directionIndex` advances by one
and `totalAttempts` is incremented once per failed attempt (inside the
retry loop) plus once unconditionally after the loop, exactly as in
the source.  Sleeps happen before every retry after the first attempt
of a slot. -/
def batchSlot (cfg : Config) (exec : Nat → Direction → Except String SwapRecord)
    (s : BatchState) : BatchState :=
  let direction := directionFor s.directionIndex
  let out := slotRetries exec direction s.callCount (cfg.maxRetries + 1)
  match out.record with
  | some r =>
    { results := s.results ++ [r]
      successCount := s.successCount + 1
      totalAttempts := s.totalAttempts + out.failedAttempts + 1
      totalFailures := s.totalFailures
      directionIndex := s.directionIndex + 1
      callCount := s.callCount + out.failedAttempts + 1
      sleepCount := s.sleepCount + out.failedAttempts
      slotDirections := s.slotDirections ++ [direction]
      slotAttempts := s.slotAttempts ++ [out.failedAttempts + 1] }
  | none =>
    { results := s.results ++ [failureRecord direction out.lastError]
      successCount := s.successCount
      totalAttempts := s.totalAttempts + out.failedAttempts + 1
      totalFailures := s.totalFailures + 1
      directionIndex := s.directionIndex + 1
      callCount := s.callCount + out.failedAttempts
      sleepCount := s.sleepCount + (out.failedAttempts - 1)
      slotDirections := s.slotDirections ++ [direction]
      slotAttempts := s.slotAttempts ++ [out.failedAttempts] }

/-- The `if (successCount < targetCount) await sleep(delayMs)` pause at
the bottom of the loop body. -/
def interSlotPause (targetCount : Nat) (s : BatchState) : BatchState :=
  if s.successCount < targetCount then
    { s with sleepCount := s.sleepCount + 1 }
  else s

/-- The `while (successCount < targetCount)` loop, indexed by the
number of loop iterations still allowed; `none` means the loop
condition was still true when the fuel ran out. -/
def batchLoop (cfg : Config) (exec : Nat → Direction → Except String SwapRecord)
    (targetCount : Nat) : Nat → BatchState → Option BatchState
  | 0, s => if s.successCount < targetCount then none else some s
  | fuel + 1, s =>
    if s.successCount < targetCount then
      batchLoop cfg exec targetCount fuel
        (interSlotPause targetCount (batchSlot cfg exec s))
    else some s

/-- Shallow embedding of `executeBatchSwaps` up to the end of its
`while` loop, started from the initial state. -/
def executeBatchSwaps (cfg : Config)
    (exec : Nat → Direction → Except String SwapRecord)
    (targetCount fuel : Nat) : Option BatchState :=
  batchLoop cfg exec targetCount fuel initialBatchState

/-- JavaScript truthiness of the `r.gasUsed` field as used by the
summary filter: an absent field and the number `0` are falsy, any
other number is truthy. -/
def gasTruthy : Option Int → Bool
  | none => false
  | some g => g != 0

/-- The summary aggregation
`results.filter(r => r.success && r.gasUsed).reduce((sum, r) => sum + r.gasUsed, 0)`. -/
def totalGasUsed (results : List SwapRecord) : Int :=
  (results.filter fun r => r.success && gasTruthy r.gasUsed).foldl
    (fun sum r => sum + r.gasUsed.getD 0) 0

/-- The summary aggregation seen as a transformer of the result log:
it produces the total and hands the log back.  JavaScript `filter` and
`reduce` allocate fresh values, so the log that flows on is the very
log that came in. -/
def aggregateGas (results : List SwapRecord) : Int × List SwapRecord :=
  (totalGasUsed results, results)

/-- Structural-recursion restatement of the gas aggregation: the sum
of the measured gas of the successful entries. -/
def totalGasUsedSpec : List SwapRecord → Int
  | [] => 0
  | r :: rest =>
    (if r.success && gasTruthy r.gasUsed then r.gasUsed.getD 0 else 0) +
      totalGasUsedSpec rest

/-- The numbers printed in the `BATCH SUMMARY` block at the end of
`executeBatchSwaps`, as functions of the target and the final loop
state. -/
structure PrintedSummary where
  targetSwaps : Nat
  successful : Nat
  failed : Nat
  totalAttempts : Nat
  totalGas : Int
deriving DecidableEq, Repr

/-- Build the printed summary from the final loop state. -/
def printedSummary (targetCount : Nat) (s : BatchState) : PrintedSummary :=
  { targetSwaps := targetCount
    successful := s.successCount
    failed := s.totalFailures
    totalAttempts := s.totalAttempts
    totalGas := totalGasUsed s.results }

/-- The identifiers that are in scope inside `executeBatchSwaps` at
its `return` statement: the function parameters, the locals declared
in its body, and the module-level imports and declarations of
`swap.js`. -/
def batchScopeIdentifiers : List String :=
  ["keypair", "connection", "targetCount", "delayMs",
   "priorityFeeDisplay", "results", "successCount", "totalAttempts",
   "totalFailures", "directionIndex", "totalGasUsed", "totalGasSol",
   "solPriceUsdc", "config", "TOKENS", "DECIMALS", "Connection",
   "VersionedTransaction", "getQuote", "getSwapTransaction",
   "getSwapAmountInSmallestUnits", "formatAmount", "executeSwap",
   "executeBatchSwaps", "sleep"]

/-- The identifiers read by the `return` statement of
`executeBatchSwaps`:
`return { total: count, successful: successCount, failed: failCount,
totalGasUsed, results }`. -/
def returnStatementIdentifiers : List String :=
  ["count", "successCount", "failCount", "totalGasUsed", "results"]

/-- The identifiers the `return` statement reads that are not bound
anywhere in the enclosing scopes. -/
def batchReturnUndefinedIdentifiers : List String :=
  returnStatementIdentifiers.filter fun n => !batchScopeIdentifiers.contains n

/-- Whether evaluating the `return` statement raises a
`ReferenceError` (in an ES module every identifier read is resolved
against the static scope chain and an unresolved one throws). -/
def batchReturnRaisesReferenceError : Bool :=
  !batchReturnUndefinedIdentifiers.isEmpty

/-- A fully populated success record, used to script executors. -/
def baseOkRecord (d : Direction) : SwapRecord :=
  { direction := d
    success := true
    signature := some "sig"
    inputAmount := some 1000
    inputToken := some (match d with
      | Direction.USDC_TO_USDT => Token.USDC
      | Direction.USDT_TO_USDC => Token.USDT)
    outputAmount := some 999
    outputToken := some (match d with
      | Direction.USDC_TO_USDT => Token.USDT
      | Direction.USDT_TO_USDC => Token.USDC)
    gasUsed := some 5000
    duration := some 1
    error := none }

/-- Executor whose every attempt fails (for instance, every quote
request throws). -/
def execAllFail : Nat → Direction → Except String SwapRecord :=
  fun _ _ => Except.error "Quote failed: 500"

/-- Executor whose every attempt succeeds. -/
def execAllOk : Nat → Direction → Except String SwapRecord :=
  fun _ d => Except.ok (baseOkRecord d)

/-- Executor scripted by a list of attempt outcomes indexed by the
global attempt number: `true` succeeds, `false` (and any attempt past
the end of the script) fails. -/
def execOfList (script : List Bool) : Nat → Direction → Except String SwapRecord :=
  fun n d =>
    if script.getD n false then Except.ok (baseOkRecord d)
    else Except.error "swap failed"

/-- Whether an executor attempt returned normally. -/
def okAttempt : Except String SwapRecord → Bool
  | Except.ok _ => true
  | Except.error _ => false

/-- Configuration with `maxRetries = 1`, used by the worked examples. -/
def cfgRetry1 : Config := { defaultConfig with maxRetries := 1 }

theorem batchLoop_zero (cfg : Config) (exec : Nat → Direction → Except String SwapRecord)
    (t : Nat) (s : BatchState) :
    batchLoop cfg exec t 0 s = if s.successCount < t then none else some s := rfl

theorem batchLoop_succ (cfg : Config) (exec : Nat → Direction → Except String SwapRecord)
    (t f : Nat) (s : BatchState) :
    batchLoop cfg exec t (f + 1) s =
      if s.successCount < t then
        batchLoop cfg exec t f (interSlotPause t (batchSlot cfg exec s))
      else some s := rfl

theorem interSlotPause_fields (t : Nat) (s : BatchState) :
    (interSlotPause t s).results = s.results ∧
    (interSlotPause t s).successCount = s.successCount ∧
    (interSlotPause t s).totalAttempts = s.totalAttempts ∧
    (interSlotPause t s).totalFailures = s.totalFailures ∧
    (interSlotPause t s).directionIndex = s.directionIndex ∧
    (interSlotPause t s).callCount = s.callCount ∧
    (interSlotPause t s).slotDirections = s.slotDirections ∧
    (interSlotPause t s).slotAttempts = s.slotAttempts := by
  unfold interSlotPause
  split <;> exact ⟨rfl, rfl, rfl, rfl, rfl, rfl, rfl, rfl⟩

theorem batchSlot_some_eq (cfg : Config) (exec : Nat → Direction → Except String SwapRecord)
    (s : BatchState) (r : SwapRecord)
    (h : (slotRetries exec (directionFor s.directionIndex) s.callCount
        (cfg.maxRetries + 1)).record = some r) :
    batchSlot cfg exec s =
      { results := s.results ++ [r]
        successCount := s.successCount + 1
        totalAttempts := s.totalAttempts + (slotRetries exec (directionFor s.directionIndex)
          s.callCount (cfg.maxRetries + 1)).failedAttempts + 1
        totalFailures := s.totalFailures
        directionIndex := s.directionIndex + 1
        callCount := s.callCount + (slotRetries exec (directionFor s.directionIndex)
          s.callCount (cfg.maxRetries + 1)).failedAttempts + 1
        sleepCount := s.sleepCount + (slotRetries exec (directionFor s.directionIndex)
          s.callCount (cfg.maxRetries + 1)).failedAttempts
        slotDirections := s.slotDirections ++ [directionFor s.directionIndex]
        slotAttempts := s.slotAttempts ++ [(slotRetries exec (directionFor s.directionIndex)
          s.callCount (cfg.maxRetries + 1)).failedAttempts + 1] } := by
  unfold batchSlot
  simp only [h]

theorem batchSlot_none_eq (cfg : Config) (exec : Nat → Direction → Except String SwapRecord)
    (s : BatchState)
    (h : (slotRetries exec (directionFor s.directionIndex) s.callCount
        (cfg.maxRetries + 1)).record = none) :
    batchSlot cfg exec s =
      { results := s.results ++ [failureRecord (directionFor s.directionIndex)
          (slotRetries exec (directionFor s.directionIndex) s.callCount
            (cfg.maxRetries + 1)).lastError]
        successCount := s.successCount
        totalAttempts := s.totalAttempts + (slotRetries exec (directionFor s.directionIndex)
          s.callCount (cfg.maxRetries + 1)).failedAttempts + 1
        totalFailures := s.totalFailures + 1
        directionIndex := s.directionIndex + 1
        callCount := s.callCount + (slotRetries exec (directionFor s.directionIndex)
          s.callCount (cfg.maxRetries + 1)).failedAttempts
        sleepCount := s.sleepCount + ((slotRetries exec (directionFor s.directionIndex)
          s.callCount (cfg.maxRetries + 1)).failedAttempts - 1)
        slotDirections := s.slotDirections ++ [directionFor s.directionIndex]
        slotAttempts := s.slotAttempts ++ [(slotRetries exec (directionFor s.directionIndex)
          s.callCount (cfg.maxRetries + 1)).failedAttempts] } := by
  unfold batchSlot
  simp only [h]

theorem batchLoop_inv (cfg : Config) (exec : Nat → Direction → Except String SwapRecord)
    (t : Nat) (P : BatchState → Prop)
    (hstep : ∀ s, s.successCount < t → P s →
      P (interSlotPause t (batchSlot cfg exec s))) :
    ∀ fuel s s', P s → batchLoop cfg exec t fuel s = some s' → P s' := by
  intro fuel
  induction fuel with
  | zero =>
    intro s s' hP h
    rw [batchLoop_zero] at h
    by_cases hc : s.successCount < t
    · rw [if_pos hc] at h; exact Option.noConfusion h
    · rw [if_neg hc] at h
      exact (Option.some.inj h) ▸ hP
  | succ f ih =>
    intro s s' hP h
    rw [batchLoop_succ] at h
    by_cases hc : s.successCount < t
    · rw [if_pos hc] at h
      exact ih _ _ (hstep s hc hP) h
    · rw [if_neg hc] at h
      exact (Option.some.inj h) ▸ hP

theorem batchLoop_exit (cfg : Config) (exec : Nat → Direction → Except String SwapRecord)
    (t : Nat) :
    ∀ fuel s s', batchLoop cfg exec t fuel s = some s' → ¬s'.successCount < t := by
  intro fuel
  induction fuel with
  | zero =>
    intro s s' h
    rw [batchLoop_zero] at h
    by_cases hc : s.successCount < t
    · rw [if_pos hc] at h; exact Option.noConfusion h
    · rw [if_neg hc] at h; exact (Option.some.inj h) ▸ hc
  | succ f ih =>
    intro s s' h
    rw [batchLoop_succ] at h
    by_cases hc : s.successCount < t
    · rw [if_pos hc] at h; exact ih _ _ h
    · rw [if_neg hc] at h; exact (Option.some.inj h) ▸ hc

theorem slotRetries_allFail (exec : Nat → Direction → Except String SwapRecord)
    (direction : Direction) :
    ∀ budget callIdx,
      (∀ j, j < budget → okAttempt (exec (callIdx + j) direction) = false) →
      (slotRetries exec direction callIdx budget).record = none ∧
      (slotRetries exec direction callIdx budget).failedAttempts = budget := by
  intro budget
  induction budget with
  | zero => intro c _; exact ⟨rfl, rfl⟩
  | succ b ih =>
    intro c h
    have h0 := h 0 (Nat.succ_pos b)
    rw [Nat.add_zero] at h0
    cases hx : exec c direction with
    | ok r => rw [hx] at h0; exact absurd h0 (by simp [okAttempt])
    | error e =>
      have hrest := ih (c + 1) (fun j hj => by
        have hh := h (j + 1) (Nat.succ_lt_succ hj)
        have he : c + (j + 1) = c + 1 + j := by omega
        rwa [he] at hh)
      simp [slotRetries, hx, hrest.1, hrest.2]

theorem slotRetries_firstOk (exec : Nat → Direction → Except String SwapRecord)
    (direction : Direction) (callIdx b : Nat) (r : SwapRecord)
    (hx : exec callIdx direction = Except.ok r) :
    slotRetries exec direction callIdx (b + 1) =
      { record := some r, failedAttempts := 0, lastError := none } := by
  simp [slotRetries, hx]

theorem slotRetries_record_ok (exec : Nat → Direction → Except String SwapRecord)
    (direction : Direction) :
    ∀ budget callIdx r,
      (slotRetries exec direction callIdx budget).record = some r →
      ∃ j, j < budget ∧ exec (callIdx + j) direction = Except.ok r := by
  intro budget
  induction budget with
  | zero => intro c r h; exact absurd h (by simp [slotRetries])
  | succ b ih =>
    intro c r h
    cases hx : exec c direction with
    | ok r0 =>
      rw [slotRetries_firstOk exec direction c b r0 hx] at h
      exact ⟨0, Nat.succ_pos b, by rw [Nat.add_zero, hx, Option.some.inj h]⟩
    | error e =>
      have h' : (slotRetries exec direction (c + 1) b).record = some r := by
        simp only [slotRetries, hx] at h
        exact h
      obtain ⟨j, hj, hok⟩ := ih (c + 1) r h'
      refine ⟨j + 1, Nat.succ_lt_succ hj, ?_⟩
      rw [show c + (j + 1) = c + 1 + j from by omega]
      exact hok

theorem batchLoop_allFail_none (cfg : Config)
    (exec : Nat → Direction → Except String SwapRecord) (t : Nat)
    (hfail : ∀ n d, okAttempt (exec n d) = false) :
    ∀ fuel s, s.successCount < t → batchLoop cfg exec t fuel s = none := by
  intro fuel
  induction fuel with
  | zero => intro s hs; rw [batchLoop_zero, if_pos hs]
  | succ f ih =>
    intro s hs
    rw [batchLoop_succ, if_pos hs]
    apply ih
    have hnone := (slotRetries_allFail exec (directionFor s.directionIndex)
      (cfg.maxRetries + 1) s.callCount (fun j _ => hfail _ _)).1
    rw [(interSlotPause_fields t (batchSlot cfg exec s)).2.1,
      batchSlot_none_eq cfg exec s hnone]
    exact hs

theorem batchLoop_allOk_terminates (cfg : Config)
    (exec : Nat → Direction → Except String SwapRecord) (t : Nat)
    (hok : ∀ n d, okAttempt (exec n d) = true) :
    ∀ fuel s, t ≤ s.successCount + fuel →
      (batchLoop cfg exec t fuel s).isSome = true := by
  intro fuel
  induction fuel with
  | zero =>
    intro s hs
    rw [batchLoop_zero, if_neg (by omega)]
    rfl
  | succ f ih =>
    intro s hs
    by_cases hc : s.successCount < t
    · rw [batchLoop_succ, if_pos hc]
      apply ih
      have h0 := hok s.callCount (directionFor s.directionIndex)
      cases hx : exec s.callCount (directionFor s.directionIndex) with
      | error e => rw [hx] at h0; exact absurd h0 (by simp [okAttempt])
      | ok r =>
        have hrec : (slotRetries exec (directionFor s.directionIndex) s.callCount
            (cfg.maxRetries + 1)).record = some r := by
          rw [slotRetries_firstOk exec (directionFor s.directionIndex) s.callCount
            cfg.maxRetries r hx]
        rw [(interSlotPause_fields t (batchSlot cfg exec s)).2.1,
          batchSlot_some_eq cfg exec s r hrec]
        show t ≤ s.successCount + 1 + f
        omega
    · rw [batchLoop_succ, if_neg hc]; rfl

theorem batchLoop_success_le (cfg : Config)
    (exec : Nat → Direction → Except String SwapRecord) (t : Nat) :
    ∀ fuel s s', s.successCount ≤ t → batchLoop cfg exec t fuel s = some s' →
      s'.successCount ≤ t := by
  apply batchLoop_inv cfg exec t (fun s => s.successCount ≤ t)
  intro s hc _
  rw [(interSlotPause_fields t (batchSlot cfg exec s)).2.1]
  cases hrec : (slotRetries exec (directionFor s.directionIndex) s.callCount
      (cfg.maxRetries + 1)).record with
  | some r =>
    rw [batchSlot_some_eq cfg exec s r hrec]
    show s.successCount + 1 ≤ t
    omega
  | none =>
    rw [batchSlot_none_eq cfg exec s hrec]
    show s.successCount ≤ t
    omega

/-- An executor behaviour under which the batch run never finishes,
whatever iteration allowance it is given. -/
def neverTerminates (cfg : Config)
    (exec : Nat → Direction → Except String SwapRecord) (targetCount : Nat) : Prop :=
  ∀ fuel, executeBatchSwaps cfg exec targetCount fuel = none

/-- C1, counterexample.  The claim says the batch loop terminates for
every behaviour of the executor, including an always-failing one.  It
does not: with `targetSuccessCount = 1` and an executor whose every
attempt fails, an exhausted slot advances the slot index but not
`successCount`, the loop condition `successCount < targetCount` stays
true, and the run never finishes however many iterations it is
allowed. -/
theorem batch_nontermination_always_failing :
    neverTerminates defaultConfig execAllFail 1 := by
  intro fuel
  unfold executeBatchSwaps
  exact batchLoop_allFail_none defaultConfig execAllFail 1 (fun n d => rfl) fuel
    initialBatchState (by decide)

/-- C1, amended.  The batch loop can only finish by driving
`successCount` up to `targetSuccessCount` (every completed run ends
with exactly that many successes), and it does terminate whenever the
executor keeps succeeding: with an executor whose every attempt
succeeds, `targetSuccessCount` loop iterations suffice.  Termination
is not guaranteed for a persistently failing executor, because an
exhausted slot advances the slot index but not the success count. -/
theorem batch_termination_amended :
    (∀ cfg exec targetCount fuel s',
        executeBatchSwaps cfg exec targetCount fuel = some s' →
        s'.successCount = targetCount) ∧
    (∀ cfg exec targetCount, (∀ n d, okAttempt (exec n d) = true) →
        (executeBatchSwaps cfg exec targetCount targetCount).isSome = true) := by
  constructor
  · intro cfg exec t fuel s' h
    have hge := batchLoop_exit cfg exec t fuel initialBatchState s' h
    have hle := batchLoop_success_le cfg exec t fuel initialBatchState s'
      (by show 0 ≤ t; omega) h
    omega
  · intro cfg exec t hok
    exact batchLoop_allOk_terminates cfg exec t hok t initialBatchState
      (by show t ≤ 0 + t; omega)

/-- C1, witness for the amended theorem at a concrete input: an
all-successful executor with target 2 finishes within 2 iterations. -/
theorem batch_termination_amended_witness :
    (∀ n d, okAttempt (execAllOk n d) = true) ∧
    (executeBatchSwaps defaultConfig execAllOk 2 2).isSome = true :=
  ⟨fun _ _ => rfl,
    batch_termination_amended.2 defaultConfig execAllOk 2 (fun _ _ => rfl)⟩

/-- C2.  The spec contract says the batch engine returns the
`BatchRunSummary`.  The `return` statement of `executeBatchSwaps`
reads the identifiers `count` and `failCount`, and neither is bound
anywhere in the function or its module (the locals actually holding
those values are `targetCount` and `totalFailures`), so evaluating the
statement raises a `ReferenceError` instead of producing the summary
object: every completed run ends in this throw. -/
theorem batch_return_reference_error :
    batchReturnUndefinedIdentifiers = ["count", "failCount"] ∧
    batchReturnRaisesReferenceError = true := by
  constructor <;> rfl

/-- Scripted attempts: fail, fail, success. -/
def execFFS : Nat → Direction → Except String SwapRecord :=
  execOfList [false, false, true]

/-- Scripted attempts: fail, success, success, success (the worked
example of the spec). -/
def execFSSS : Nat → Direction → Except String SwapRecord :=
  execOfList [false, true, true, true]

/-- C5.  With `maxRetries = 1` and `targetSuccessCount = 1` driven by
scripted attempts [fail, fail, success], slot 0 exhausts its budget
(2 attempts) and slot 1 succeeds first try, so `S = 1`, `F = 1` and
the executor is invoked `callCount = 3 = S + F*(maxRetries+1)` times;
yet the summary reports `totalAttempts = 4`, because the unconditional
`totalAttempts++` after the retry loop also runs for an exhausted slot
whose failed attempts were already all counted inside the loop.  The
spec's concrete example does hold: with `targetSuccessCount = 3`,
`maxRetries = 1` and scripted attempts [fail, success, success,
success] the summary reports successful = 3, totalAttempts = 4,
failed = 0, with directions alternating from USDC→USDT. -/
theorem total_attempts_overcount :
    (executeBatchSwaps cfgRetry1 execFFS 1 2).map
        (fun s => ((printedSummary 1 s).successful, (printedSummary 1 s).failed,
          (printedSummary 1 s).totalAttempts, s.callCount)) =
      some (1, 1, 4, 3) ∧
    (executeBatchSwaps cfgRetry1 execFSSS 3 3).map
        (fun s => ((printedSummary 3 s).successful, (printedSummary 3 s).failed,
          (printedSummary 3 s).totalAttempts, s.slotDirections)) =
      some (3, 0, 4,
        [Direction.USDC_TO_USDT, Direction.USDT_TO_USDC, Direction.USDC_TO_USDT]) := by
  constructor <;> rfl

/-- Scripted attempts: fail, success. -/
def execFS : Nat → Direction → Except String SwapRecord :=
  execOfList [false, true]

/-- C7, counterexample.  The claim says every attempt is appended to
the result log, one entry per attempt.  With `maxRetries = 1`,
`targetSuccessCount = 1` and scripted attempts [fail, success], slot 0
makes 2 attempts (`callCount = 2`, `slotAttempts = [2]`) but the
result log receives exactly 1 entry: the failed first attempt is
retried without being logged and only the final successful record is
pushed. -/
theorem log_entry_per_attempt_cex :
    (executeBatchSwaps cfgRetry1 execFS 1 1).map
        (fun s => (s.callCount, s.slotAttempts, s.results.length)) =
      some (2, [2], 1) := by rfl

theorem foldl_gas_shift (l : List SwapRecord) :
    ∀ a : Int, l.foldl (fun sum r => sum + r.gasUsed.getD 0) a =
      a + l.foldl (fun sum r => sum + r.gasUsed.getD 0) 0 := by
  induction l with
  | nil => intro a; simp
  | cons r l ih =>
    intro a
    simp only [List.foldl_cons]
    rw [ih (a + r.gasUsed.getD 0), ih (0 + r.gasUsed.getD 0)]
    ring

theorem totalGasUsed_cons (r : SwapRecord) (rest : List SwapRecord) :
    totalGasUsed (r :: rest) =
      (if r.success && gasTruthy r.gasUsed then r.gasUsed.getD 0 else 0) +
        totalGasUsed rest := by
  unfold totalGasUsed
  rw [List.filter_cons]
  by_cases h : (r.success && gasTruthy r.gasUsed) = true
  · rw [if_pos h, if_pos h, List.foldl_cons, foldl_gas_shift]
    ring
  · rw [if_neg h, if_neg h]
    ring

theorem totalGasUsed_eq_spec (rs : List SwapRecord) :
    totalGasUsed rs = totalGasUsedSpec rs := by
  induction rs with
  | nil => rfl
  | cons r rest ih => rw [totalGasUsed_cons, ih]; rfl

/-- C9.  The summary aggregation over the result log is pure: seen as
a log transformer it hands the log back unchanged, re-running it on
that log yields the identical total, and the filter-and-fold it
performs equals a plain structural recursion over the entries. -/
theorem summary_aggregation_pure (rs : List SwapRecord) :
    (aggregateGas rs).2 = rs ∧
    (aggregateGas (aggregateGas rs).2).1 = (aggregateGas rs).1 ∧
    totalGasUsed rs = totalGasUsedSpec rs :=
  ⟨rfl, rfl, totalGasUsed_eq_spec rs⟩

theorem list_get_congr {α : Type} {l l' : List α} (h : l = l') (i : Nat)
    (hi : i < l.length) (hi' : i < l'.length) :
    l.get ⟨i, hi⟩ = l'.get ⟨i, hi'⟩ := by subst h; rfl

theorem batchLoop_slotDirections (cfg : Config)
    (exec : Nat → Direction → Except String SwapRecord) (t : Nat) :
    ∀ fuel s s',
      s.slotDirections = (List.range s.directionIndex).map directionFor →
      batchLoop cfg exec t fuel s = some s' →
      s'.slotDirections = (List.range s'.directionIndex).map directionFor := by
  apply batchLoop_inv cfg exec t
    (fun s => s.slotDirections = (List.range s.directionIndex).map directionFor)
  intro s _ hP
  have hf := interSlotPause_fields t (batchSlot cfg exec s)
  rw [hf.2.2.2.2.2.2.1, hf.2.2.2.2.1]
  cases hrec : (slotRetries exec (directionFor s.directionIndex) s.callCount
      (cfg.maxRetries + 1)).record with
  | some r =>
    rw [batchSlot_some_eq cfg exec s r hrec]
    show s.slotDirections ++ [directionFor s.directionIndex] =
      (List.range (s.directionIndex + 1)).map directionFor
    rw [hP, List.range_succ, List.map_append]
    rfl
  | none =>
    rw [batchSlot_none_eq cfg exec s hrec]
    show s.slotDirections ++ [directionFor s.directionIndex] =
      (List.range (s.directionIndex + 1)).map directionFor
    rw [hP, List.range_succ, List.map_append]
    rfl

/-- C3.  In every completed batch run the direction attempted at slot
`i` (recorded once per slot, however many retry attempts the slot
consumed) is USDC→USDT for even `i` and USDT→USDC for odd `i`, and
the slot index counter advances by exactly one per resolved slot:
the per-slot direction trace has exactly `directionIndex` entries. -/
theorem direction_alternates_by_slot (cfg : Config)
    (exec : Nat → Direction → Except String SwapRecord)
    (targetCount fuel : Nat) (s' : BatchState)
    (h : executeBatchSwaps cfg exec targetCount fuel = some s') :
    s'.slotDirections.length = s'.directionIndex ∧
    ∀ i (hi : i < s'.slotDirections.length),
      s'.slotDirections.get ⟨i, hi⟩ =
        if i % 2 = 0 then Direction.USDC_TO_USDT else Direction.USDT_TO_USDC := by
  have hinv := batchLoop_slotDirections cfg exec targetCount fuel initialBatchState s'
    (by rfl) h
  constructor
  · rw [hinv]; simp
  · intro i hi
    have hi' : i < ((List.range s'.directionIndex).map directionFor).length := by
      rw [← hinv]; exact hi
    rw [list_get_congr hinv i hi hi']
    simp [List.get_eq_getElem, directionFor]

/-- C3, witness: a concrete completed run (two first-try successes)
whose direction trace has one entry per resolved slot. -/
theorem direction_alternates_by_slot_witness :
    executeBatchSwaps cfgRetry1 execAllOk 2 2 =
      some ((executeBatchSwaps cfgRetry1 execAllOk 2 2).getD initialBatchState) ∧
    ((executeBatchSwaps cfgRetry1 execAllOk 2 2).getD initialBatchState).slotDirections.length =
      ((executeBatchSwaps cfgRetry1 execAllOk 2 2).getD initialBatchState).directionIndex :=
  ⟨by rfl,
    (direction_alternates_by_slot cfgRetry1 execAllOk 2 2
      ((executeBatchSwaps cfgRetry1 execAllOk 2 2).getD initialBatchState) (by rfl)).1⟩

theorem executeSwap_reduce (cfg : Config) (env : SwapEnv) (d : Direction)
    (q : Nat) (tx sig : String)
    (hq : env.quote = Except.ok q)
    (htx : env.swapTransaction = Except.ok tx)
    (hsend : env.sendRawTransaction = Except.ok sig) :
    executeSwap cfg env d =
      match env.confirm with
      | ConfirmOutcome.confirmed (some e) =>
          Except.error ("Transaction failed: " ++ e)
      | _ =>
          Except.ok
            { direction := d
              success := true
              signature := some sig
              inputAmount := some (getSwapAmountInSmallestUnits cfg (match d with
                | Direction.USDC_TO_USDT => Token.USDC
                | Direction.USDT_TO_USDC => Token.USDT))
              inputToken := some (match d with
                | Direction.USDC_TO_USDT => Token.USDC
                | Direction.USDT_TO_USDC => Token.USDT)
              outputAmount := some q
              outputToken := some (match d with
                | Direction.USDC_TO_USDT => Token.USDT
                | Direction.USDT_TO_USDC => Token.USDC)
              gasUsed := some (match env.balanceBefore, env.balanceAfter with
                | Except.ok b, Except.ok a => b - a
                | _, _ => 0)
              duration := some env.duration
              error := none } := by
  obtain ⟨bb, qv, stx, srt, cf, ba, du⟩ := env
  simp only at hq htx hsend
  subst hq htx hsend
  cases cf with
  | queryError m => cases bb <;> cases ba <;> rfl
  | confirmed oe =>
    cases oe with
    | none => cases bb <;> cases ba <;> rfl
    | some e => rfl

/-- C4.  When the submission pipeline has succeeded, a confirmation
query that itself errors (a network failure of the query) leaves the
attempt successful: `executeSwap` returns normally rather than
raising, so the batch engine counts the attempt as a success and
never retries it.  The attempt fails if and only if the confirmation
resolved carrying an on-chain error. -/
theorem confirm_query_error_optimistic (cfg : Config) (env : SwapEnv) (d : Direction)
    (q : Nat) (tx sig : String)
    (hq : env.quote = Except.ok q)
    (htx : env.swapTransaction = Except.ok tx)
    (hsend : env.sendRawTransaction = Except.ok sig) :
    (∀ m, env.confirm = ConfirmOutcome.queryError m →
      okAttempt (executeSwap cfg env d) = true) ∧
    (okAttempt (executeSwap cfg env d) = false ↔
      ∃ e, env.confirm = ConfirmOutcome.confirmed (some e)) := by
  rw [executeSwap_reduce cfg env d q tx sig hq htx hsend]
  constructor
  · intro m hm
    rw [hm]
    rfl
  · cases hcf : env.confirm with
    | queryError m => simp [okAttempt, hcf]
    | confirmed oe =>
      cases oe with
      | none => simp [okAttempt, hcf]
      | some e => simp [okAttempt, hcf]

/-- Environment of an attempt whose confirmation query throws. -/
def envQueryErr : SwapEnv :=
  { balanceBefore := Except.ok 10
    quote := Except.ok 999
    swapTransaction := Except.ok "tx"
    sendRawTransaction := Except.ok "sig"
    confirm := ConfirmOutcome.queryError "timeout"
    balanceAfter := Except.ok 4
    duration := 5 }

/-- C4, witness: the concrete attempt whose confirmation query throws
returns normally. -/
theorem confirm_query_error_optimistic_witness :
    envQueryErr.confirm = ConfirmOutcome.queryError "timeout" ∧
    okAttempt (executeSwap defaultConfig envQueryErr Direction.USDC_TO_USDT) = true :=
  ⟨rfl,
    (confirm_query_error_optimistic defaultConfig envQueryErr Direction.USDC_TO_USDT
      999 "tx" "sig" rfl rfl rfl).1 "timeout" rfl⟩

/-- C6.  At a slot where every attempt fails, the engine invokes the
executor exactly `maxRetries + 1` times (one initial attempt plus
`maxRetries` retries, sleeping the configured delay once before each
retry), then appends one failed-after-retries record, increments the
failure tally, leaves the success count unchanged, advances the slot
index by one, and the loop proceeds into its next iteration rather
than aborting. -/
theorem exhausted_slot_retry_budget (cfg : Config)
    (exec : Nat → Direction → Except String SwapRecord)
    (targetCount fuel : Nat) (s : BatchState)
    (hfail : ∀ j, j ≤ cfg.maxRetries →
      okAttempt (exec (s.callCount + j) (directionFor s.directionIndex)) = false)
    (hcont : s.successCount < targetCount) :
    (batchSlot cfg exec s).callCount = s.callCount + (cfg.maxRetries + 1) ∧
    (batchSlot cfg exec s).sleepCount = s.sleepCount + cfg.maxRetries ∧
    (batchSlot cfg exec s).totalFailures = s.totalFailures + 1 ∧
    (batchSlot cfg exec s).successCount = s.successCount ∧
    (batchSlot cfg exec s).directionIndex = s.directionIndex + 1 ∧
    (batchSlot cfg exec s).slotAttempts = s.slotAttempts ++ [cfg.maxRetries + 1] ∧
    (∃ r, (batchSlot cfg exec s).results = s.results ++ [r] ∧
      r.success = false ∧ r.direction = directionFor s.directionIndex) ∧
    batchLoop cfg exec targetCount (fuel + 1) s =
      batchLoop cfg exec targetCount fuel
        (interSlotPause targetCount (batchSlot cfg exec s)) := by
  have hsr := slotRetries_allFail exec (directionFor s.directionIndex)
    (cfg.maxRetries + 1) s.callCount
    (fun j hj => hfail j (Nat.lt_succ_iff.mp hj))
  have heq := batchSlot_none_eq cfg exec s hsr.1
  refine ⟨?_, ?_, ?_, ?_, ?_, ?_, ?_, ?_⟩
  · rw [heq]
    show s.callCount + (slotRetries exec (directionFor s.directionIndex) s.callCount
      (cfg.maxRetries + 1)).failedAttempts = s.callCount + (cfg.maxRetries + 1)
    rw [hsr.2]
  · rw [heq]
    show s.sleepCount + ((slotRetries exec (directionFor s.directionIndex) s.callCount
      (cfg.maxRetries + 1)).failedAttempts - 1) = s.sleepCount + cfg.maxRetries
    rw [hsr.2]
    omega
  · rw [heq]
  · rw [heq]
  · rw [heq]
  · rw [heq]
    show s.slotAttempts ++ [(slotRetries exec (directionFor s.directionIndex) s.callCount
      (cfg.maxRetries + 1)).failedAttempts] = s.slotAttempts ++ [cfg.maxRetries + 1]
    rw [hsr.2]
  · exact ⟨failureRecord (directionFor s.directionIndex)
      (slotRetries exec (directionFor s.directionIndex) s.callCount
        (cfg.maxRetries + 1)).lastError, by rw [heq], rfl, rfl⟩
  · rw [batchLoop_succ, if_pos hcont]

/-- C6, witness: with `maxRetries = 1` and an always-failing executor,
the first slot consumes exactly two executor invocations. -/
theorem exhausted_slot_retry_budget_witness :
    initialBatchState.successCount < 1 ∧
    (batchSlot cfgRetry1 execAllFail initialBatchState).callCount =
      initialBatchState.callCount + (cfgRetry1.maxRetries + 1) :=
  ⟨by decide,
    (exhausted_slot_retry_budget cfgRetry1 execAllFail 1 0 initialBatchState
      (fun _ _ => rfl) (by decide)).1⟩

/-- Whether a balance fetch returned normally. -/
def okFetch : Except String Int → Bool
  | Except.ok _ => true
  | Except.error _ => false

/-- The record inside a normally returned executor outcome. -/
def swapResultOf : Except String SwapRecord → SwapRecord
  | Except.ok r => r
  | Except.error _ => failureRecord Direction.USDC_TO_USDT none

/-- C8.  When the attempt otherwise goes through (submission pipeline
succeeded and the confirmation carried no on-chain error), a failing
balance fetch before or after the swap never fails the attempt:
`executeSwap` still returns normally, and the measured gas degrades to
the unmeasured value `0`. -/
theorem gas_measurement_best_effort (cfg : Config) (env : SwapEnv) (d : Direction)
    (q : Nat) (tx sig : String)
    (hq : env.quote = Except.ok q)
    (htx : env.swapTransaction = Except.ok tx)
    (hsend : env.sendRawTransaction = Except.ok sig)
    (hconf : ∀ e, env.confirm ≠ ConfirmOutcome.confirmed (some e))
    (hbal : okFetch env.balanceBefore = false ∨ okFetch env.balanceAfter = false) :
    okAttempt (executeSwap cfg env d) = true ∧
    ∀ r, executeSwap cfg env d = Except.ok r →
      r.success = true ∧ r.gasUsed = some 0 := by
  obtain ⟨bb, qv, stx, srt, cf, ba, du⟩ := env
  simp only at hq htx hsend hconf hbal
  subst hq htx hsend
  cases cf with
  | queryError m =>
    refine ⟨rfl, ?_⟩
    intro r hr
    injection hr with h2
    subst h2
    refine ⟨rfl, ?_⟩
    rcases hbal with hb | hb
    · cases bb with
      | ok b => exact absurd hb (by simp [okFetch])
      | error e => cases ba <;> rfl
    · cases ba with
      | ok a => exact absurd hb (by simp [okFetch])
      | error e => cases bb <;> rfl
  | confirmed oe =>
    cases oe with
    | some e => exact absurd rfl (hconf e)
    | none =>
      refine ⟨rfl, ?_⟩
      intro r hr
      injection hr with h2
      subst h2
      refine ⟨rfl, ?_⟩
      rcases hbal with hb | hb
      · cases bb with
        | ok b => exact absurd hb (by simp [okFetch])
        | error e => cases ba <;> rfl
      · cases ba with
        | ok a => exact absurd hb (by simp [okFetch])
        | error e => cases bb <;> rfl

/-- Environment of an attempt whose post-swap balance fetch throws. -/
def envBalFail : SwapEnv :=
  { balanceBefore := Except.ok 10
    quote := Except.ok 999
    swapTransaction := Except.ok "tx"
    sendRawTransaction := Except.ok "sig"
    confirm := ConfirmOutcome.confirmed none
    balanceAfter := Except.error "rpc unavailable"
    duration := 5 }

/-- C8, witness: a concrete attempt whose post-swap balance fetch
throws still succeeds, with gas reported as the unmeasured value. -/
theorem gas_measurement_best_effort_witness :
    okFetch envBalFail.balanceAfter = false ∧
    (swapResultOf (executeSwap defaultConfig envBalFail Direction.USDT_TO_USDC)).success = true ∧
    (swapResultOf (executeSwap defaultConfig envBalFail Direction.USDT_TO_USDC)).gasUsed = some 0 :=
  ⟨rfl,
    (gas_measurement_best_effort defaultConfig envBalFail Direction.USDT_TO_USDC
        999 "tx" "sig" rfl rfl rfl
        (fun e h => Option.noConfusion (ConfirmOutcome.confirmed.inj h))
        (Or.inr rfl)).2
      (swapResultOf (executeSwap defaultConfig envBalFail Direction.USDT_TO_USDC))
      (by rfl)⟩

/-- C10.  `executeSwap` either raises or returns a record whose
success flag is true — its single return site hard-codes
`success: true` — and in every completed batch run the entries of the
result log carrying `success = false` are exactly the
failed-after-retries records the engine itself pushed, one per
exhausted slot (their count equals `totalFailures`). -/
theorem executeSwap_never_returns_failure :
    (∀ cfg env d r, executeSwap cfg env d = Except.ok r → r.success = true) ∧
    (∀ cfg exec targetCount fuel s',
      (∀ n d r, exec n d = Except.ok r → r.success = true) →
      executeBatchSwaps cfg exec targetCount fuel = some s' →
      (s'.results.filter fun r => !r.success).length = s'.totalFailures) := by
  constructor
  · intro cfg env d r h
    obtain ⟨bb, qv, stx, srt, cf, ba, du⟩ := env
    cases qv with
    | error e => exact Except.noConfusion h
    | ok q =>
      cases stx with
      | error e => exact Except.noConfusion h
      | ok tx =>
        cases srt with
        | error e => exact Except.noConfusion h
        | ok sig =>
          cases cf with
          | queryError m => injection h with h2; subst h2; rfl
          | confirmed oe =>
            cases oe with
            | none => injection h with h2; subst h2; rfl
            | some e => exact Except.noConfusion h
  · intro cfg exec t fuel s' hexec hrun
    refine batchLoop_inv cfg exec t
      (fun s => (s.results.filter fun r => !r.success).length = s.totalFailures)
      ?_ fuel initialBatchState s' rfl hrun
    intro s _ hP
    have hf := interSlotPause_fields t (batchSlot cfg exec s)
    rw [hf.1, hf.2.2.2.1]
    cases hrec : (slotRetries exec (directionFor s.directionIndex) s.callCount
        (cfg.maxRetries + 1)).record with
    | some r =>
      obtain ⟨j, _, hok⟩ := slotRetries_record_ok exec (directionFor s.directionIndex)
        (cfg.maxRetries + 1) s.callCount r hrec
      have hsucc : r.success = true := hexec _ _ _ hok
      rw [batchSlot_some_eq cfg exec s r hrec]
      show ((s.results ++ [r]).filter fun r => !r.success).length = s.totalFailures
      rw [List.filter_append]
      simp [hsucc, hP]
    | none =>
      rw [batchSlot_none_eq cfg exec s hrec]
      show ((s.results ++ [failureRecord (directionFor s.directionIndex)
          (slotRetries exec (directionFor s.directionIndex) s.callCount
            (cfg.maxRetries + 1)).lastError]).filter fun r => !r.success).length =
        s.totalFailures + 1
      rw [List.filter_append]
      simp [failureRecord, hP]

/-- Environment of a fully successful attempt. -/
def envOkW : SwapEnv :=
  { balanceBefore := Except.ok 10
    quote := Except.ok 999
    swapTransaction := Except.ok "tx"
    sendRawTransaction := Except.ok "sig"
    confirm := ConfirmOutcome.confirmed none
    balanceAfter := Except.ok 4
    duration := 3 }

/-- C10, witness: a concrete normally-returning attempt carries
`success = true`. -/
theorem executeSwap_never_returns_failure_witness :
    executeSwap defaultConfig envOkW Direction.USDC_TO_USDT =
      Except.ok (swapResultOf (executeSwap defaultConfig envOkW Direction.USDC_TO_USDT)) ∧
    (swapResultOf (executeSwap defaultConfig envOkW Direction.USDC_TO_USDT)).success = true :=
  ⟨by rfl,
    executeSwap_never_returns_failure.1 defaultConfig envOkW Direction.USDC_TO_USDT
      (swapResultOf (executeSwap defaultConfig envOkW Direction.USDC_TO_USDT)) (by rfl)⟩

theorem get_append_last {α : Type} (l : List α) (x : α) :
    ∀ i (hi : i < (l ++ [x]).length),
      (l ++ [x]).get ⟨i, hi⟩ = if h : i < l.length then l.get ⟨i, h⟩ else x := by
  induction l with
  | nil =>
    intro i hi
    cases i with
    | zero => rfl
    | succ j =>
      have h1 : j + 1 < 1 := by simp at hi
      omega
  | cons a l ih =>
    intro i hi
    cases i with
    | zero =>
      rw [dif_pos (show 0 < (a :: l).length from Nat.succ_pos l.length)]
      rfl
    | succ j =>
      have hj : j < (l ++ [x]).length := Nat.lt_of_succ_lt_succ hi
      have hstep : ((a :: l) ++ [x]).get ⟨j + 1, hi⟩ = (l ++ [x]).get ⟨j, hj⟩ := rfl
      rw [hstep, ih j hj]
      by_cases h : j < l.length
      · rw [dif_pos h,
          dif_pos (show j + 1 < (a :: l).length from Nat.succ_lt_succ h)]
        rfl
      · rw [dif_neg h,
          dif_neg (show ¬j + 1 < (a :: l).length from
            fun hc => h (Nat.lt_of_succ_lt_succ hc))]

/-- Shape of the result log maintained by an all-successful run: one
entry per resolved slot, every entry marked successful, directions
alternating from USDC→USDT. -/
def goodLog (s : BatchState) : Prop :=
  s.results.length = s.directionIndex ∧
  s.successCount = s.directionIndex ∧
  ∀ i (hi : i < s.results.length),
    (s.results.get ⟨i, hi⟩).success = true ∧
    (s.results.get ⟨i, hi⟩).direction = directionFor i

theorem goodLog_congr {s₁ s₂ : BatchState} (hres : s₂.results = s₁.results)
    (hsc : s₂.successCount = s₁.successCount)
    (hdi : s₂.directionIndex = s₁.directionIndex) :
    goodLog s₁ → goodLog s₂ := by
  intro h
  obtain ⟨h1, h2, h3⟩ := h
  refine ⟨by rw [hres, hdi, h1], by rw [hsc, hdi, h2], ?_⟩
  intro i hi
  have hi' : i < s₁.results.length := by rw [← hres]; exact hi
  rw [list_get_congr hres i hi hi']
  exact h3 i hi'

theorem goodLog_slot (cfg : Config) (exec : Nat → Direction → Except String SwapRecord)
    (s : BatchState) (r : SwapRecord)
    (hrec : (slotRetries exec (directionFor s.directionIndex) s.callCount
      (cfg.maxRetries + 1)).record = some r)
    (hrsucc : r.success = true) (hrdir : r.direction = directionFor s.directionIndex)
    (hP : goodLog s) : goodLog (batchSlot cfg exec s) := by
  obtain ⟨hlen, hsc, hget⟩ := hP
  rw [batchSlot_some_eq cfg exec s r hrec]
  refine ⟨?_, ?_, ?_⟩
  · show (s.results ++ [r]).length = s.directionIndex + 1
    rw [List.length_append, hlen]
    rfl
  · show s.successCount + 1 = s.directionIndex + 1
    rw [hsc]
  · intro i hi
    have hi2 : i < (s.results ++ [r]).length := hi
    rw [get_append_last s.results r i hi2]
    by_cases h : i < s.results.length
    · rw [dif_pos h]
      exact hget i h
    · rw [dif_neg h]
      have hi3 : i < s.results.length + 1 := by simpa using hi2
      have hie : i = s.directionIndex := by omega
      exact ⟨hrsucc, by rw [hrdir, hie]⟩

/-- C7, amended.  Each resolved slot appends exactly one entry to the
result log — the successful attempt's record, or one
failed-after-retries record on exhaustion — while failed attempts that
are later retried within a slot produce no entries of their own
(every completed run has exactly one log entry per resolved slot).
In particular, a batch whose attempts all succeed first try completes
with exactly `targetSuccessCount` entries, all marked success, with
directions alternating starting at USDC→USDT. -/
theorem log_one_entry_per_slot :
    (∀ cfg exec targetCount fuel s',
        executeBatchSwaps cfg exec targetCount fuel = some s' →
        s'.results.length = s'.directionIndex) ∧
    (∀ cfg exec targetCount,
        (∀ n d, ∃ r, exec n d = Except.ok r ∧ r.success = true ∧ r.direction = d) →
        (executeBatchSwaps cfg exec targetCount targetCount).isSome = true ∧
        ∀ s', executeBatchSwaps cfg exec targetCount targetCount = some s' →
          s'.results.length = targetCount ∧
          ∀ i (hi : i < s'.results.length),
            (s'.results.get ⟨i, hi⟩).success = true ∧
            (s'.results.get ⟨i, hi⟩).direction = directionFor i) := by
  constructor
  · intro cfg exec t fuel s' h
    refine batchLoop_inv cfg exec t (fun s => s.results.length = s.directionIndex)
      ?_ fuel initialBatchState s' rfl h
    intro s _ hP
    have hf := interSlotPause_fields t (batchSlot cfg exec s)
    rw [hf.1, hf.2.2.2.2.1]
    cases hrec : (slotRetries exec (directionFor s.directionIndex) s.callCount
        (cfg.maxRetries + 1)).record with
    | some r =>
      rw [batchSlot_some_eq cfg exec s r hrec]
      show (s.results ++ [r]).length = s.directionIndex + 1
      rw [List.length_append, hP]
      rfl
    | none =>
      rw [batchSlot_none_eq cfg exec s hrec]
      show (s.results ++ [failureRecord (directionFor s.directionIndex)
          (slotRetries exec (directionFor s.directionIndex) s.callCount
            (cfg.maxRetries + 1)).lastError]).length = s.directionIndex + 1
      rw [List.length_append, hP]
      rfl
  · intro cfg exec t hexec
    have hok : ∀ n d, okAttempt (exec n d) = true := by
      intro n d
      obtain ⟨r, hr, _, _⟩ := hexec n d
      rw [hr]
      rfl
    constructor
    · exact batchLoop_allOk_terminates cfg exec t hok t initialBatchState
        (by show t ≤ 0 + t; omega)
    · intro s' h
      have hP : goodLog s' := by
        refine batchLoop_inv cfg exec t goodLog ?_ t initialBatchState s'
          ⟨rfl, rfl, fun i hi => absurd hi (Nat.not_lt_zero i)⟩ h
        intro s _ hPs
        obtain ⟨r, hok2, hrsucc, hrdir⟩ := hexec s.callCount (directionFor s.directionIndex)
        have hrec : (slotRetries exec (directionFor s.directionIndex) s.callCount
            (cfg.maxRetries + 1)).record = some r := by
          rw [slotRetries_firstOk exec (directionFor s.directionIndex) s.callCount
            cfg.maxRetries r hok2]
        have hf := interSlotPause_fields t (batchSlot cfg exec s)
        exact goodLog_congr hf.1 hf.2.1 hf.2.2.2.2.1
          (goodLog_slot cfg exec s r hrec hrsucc hrdir hPs)
      obtain ⟨hlen, hsc, hget⟩ := hP
      have hEq : s'.successCount = t := by
        have hge := batchLoop_exit cfg exec t t initialBatchState s' h
        have hle := batchLoop_success_le cfg exec t t initialBatchState s'
          (by show (0 : Nat) ≤ t; omega) h
        omega
      exact ⟨by rw [hlen, ← hsc, hEq], hget⟩

/-- C7, witness for the amended theorem: the concrete run in which
slot 0 fails once and then succeeds still has exactly one log entry
per resolved slot. -/
theorem log_one_entry_per_slot_witness :
    executeBatchSwaps cfgRetry1 execFS 1 1 =
      some ((executeBatchSwaps cfgRetry1 execFS 1 1).getD initialBatchState) ∧
    ((executeBatchSwaps cfgRetry1 execFS 1 1).getD initialBatchState).results.length =
      ((executeBatchSwaps cfgRetry1 execFS 1 1).getD initialBatchState).directionIndex :=
  ⟨by rfl,
    log_one_entry_per_slot.1 cfgRetry1 execFS 1 1
      ((executeBatchSwaps cfgRetry1 execFS 1 1).getD initialBatchState) (by rfl)⟩
